import Mathlib

/-!
Verification development for the cursor-translator repository.

The development shallowly embeds the core pipeline of the repository:
the in-place substitution engine (`apply_translations` in `main.py`),
the translation-store merge (`update_translation_json` in
`cursor_translator.py`), the fallback batch translator
(`DeepLTranslator.batch_translate`), the extraction filters
(`CursorExtractor._filter_strings` and the inline filter of
`extract_ui_strings`), the store-merge step of `extract_strings.main`,
and the sorted persistence of `save_translations`.

Texts are modelled as `List Char` (Python `str`), JSON objects as
association lists `List (String × String)` in insertion order with
unique keys (Python `dict` preserves insertion order and has unique
keys; where a proof needs uniqueness it takes a `Nodup` hypothesis).
-/

namespace CursorTranslator

/-- The double-quote character `"` (code point 34). -/
def dquote : Char := Char.ofNat 34

/-- The single-quote character (code point 39). -/
def squote : Char := Char.ofNat 39

/-- The newline character (code point 10). -/
def newline : Char := Char.ofNat 10

/-- Does `p` occur as a contiguous run inside `t`?  (Python `p in t`.) -/
def occursIn (p : List Char) : List Char → Bool
  | [] => p.isEmpty
  | c :: rest => p.isPrefixOf (c :: rest) || occursIn p rest

/-- Fueled worker for `replaceAll`.  Mirrors Python `str.replace`:
replace every non-overlapping occurrence of `p`, scanning left to
right, never rescanning emitted replacement text.  The fuel is the
length of the scanned text, which bounds the recursion (each step
consumes at least one character of the remaining text).  The callers
in this development always pass a non-empty pattern, matching
`apply_translations`, whose patterns always include two quote
characters. -/
def replaceAllAux (p r : List Char) : Nat → List Char → List Char
  | 0, t => t
  | _ + 1, [] => []
  | fuel + 1, c :: rest =>
    if !p.isEmpty && p.isPrefixOf (c :: rest) then
      r ++ replaceAllAux p r fuel ((c :: rest).drop p.length)
    else
      c :: replaceAllAux p r fuel rest

/-- Python `t.replace(p, r)` for a non-empty pattern `p`. -/
def replaceAll (p r t : List Char) : List Char :=
  replaceAllAux p r t.length t

/-- One iteration of the inner `for pattern in patterns` loop of
`apply_translations` (`main.py` lines 377-388): replace every
occurrence of the pattern, and add 1 to the running `replacements`
counter exactly when the replacement changed the text
(`old_content != modified_content`). -/
def applyPattern (p r : List Char) (acc : List Char × Nat) : List Char × Nat :=
  let t1 := replaceAll p r acc.1
  (t1, acc.2 + if t1 = acc.1 then 0 else 1)

/-- One iteration of the substitution loop of `apply_translations`
(`main.py` lines 363-388) over one `(original, translated)` entry:
skip empty translations and originals shorter than 3 characters, then
run the inner pattern loop for the two quote conventions,
double-quoted pattern first.  As in the source, the replacement for
the double-quoted pattern is single-quoted whenever the original
itself contains a single quote (`if "'" in pattern`), while the
single-quoted pattern always gets a single-quoted replacement. -/
def applyEntry (t : List Char) (e : String × String) : List Char × Nat :=
  if e.2 = "" then (t, 0)
  else if e.1.length < 3 then (t, 0)
  else
    applyPattern (squote :: e.1.data ++ [squote]) (squote :: e.2.data ++ [squote])
      (applyPattern (dquote :: e.1.data ++ [dquote])
        (if e.1.data.contains squote then squote :: e.2.data ++ [squote]
         else dquote :: e.2.data ++ [dquote])
        (t, 0))

/-- The `for original, translated in sorted_translations` loop of
`apply_translations` (`main.py` lines 363-388), returning the final
text and the total `replacements` counter. -/
def applyLoop : List (String × String) → List Char → List Char × Nat
  | [], t => (t, 0)
  | e :: es, t =>
    let r := applyEntry t e
    let rest := applyLoop es r.1
    (rest.1, r.2 + rest.2)

/-- Stable insertion (earlier elements stay in front of later elements
of equal key length) used to model Python
`sorted(translations.items(), key=lambda x: len(x[0]), reverse=True)`
(`main.py` line 361), which is a stable descending sort by key
length. -/
def insertByLen (x : String × String) : List (String × String) → List (String × String)
  | [] => [x]
  | y :: ys => if x.1.length < y.1.length then y :: insertByLen x ys else x :: y :: ys

/-- Stable descending sort of the store entries by key length
(`main.py` line 361). -/
def sortDesc (l : List (String × String)) : List (String × String) :=
  l.foldr insertByLen []

/-- The pure core of `apply_translations` (`main.py` lines 356-388):
sort the store entries by descending key length, then run the
substitution loop over the bundle text, returning the rewritten text
and the `replacements` count. -/
def applyTranslations (translations : List (String × String)) (content : List Char) :
    List Char × Nat :=
  applyLoop (sortDesc translations) content

/-- Outcome of one `apply_translations` run (`main.py` lines 390-402):
either the rewritten text is written back to the bundle file and the
function returns `True`, or nothing is written and it returns
`False`. -/
inductive RunOutcome where
  | written (newContent : List Char)
  | noChange
  deriving DecidableEq, Repr

/-- Result of `create_backup` (`main.py` lines 289-309): the backup
path on success, `None` when the copy raises or the paths are
invalid. -/
def create_backup (pathsValid copyOk : Bool) : Option Unit :=
  if pathsValid && copyOk then some () else none

/-- The effectful tail of `apply_translations` (`main.py` lines
351-402).  When `backup` is set the source calls
`create_backup(cursor_path, js_file_path)` at line 354 and discards
its return value — a failed backup (`None`) is never inspected, so the
run proceeds to substitution and, when `replacements > 0`, writes the
rewritten bundle and returns `True`. -/
def apply_translations_run (backup backupOk : Bool)
    (translations : List (String × String)) (content : List Char) : RunOutcome :=
  let _backupResult : Option (Option Unit) :=
    if backup then some (create_backup true backupOk) else none
  let r := applyTranslations translations content
  if r.2 > 0 then RunOutcome.written r.1 else RunOutcome.noChange

/-- Number of store entries (distinct keys, since a store is a dict)
whose processing step changed the text at least once, with the text
threaded exactly as in the substitution loop.  This is the
specification-side count of "distinct keys that caused at least one
replacement", to be compared with the `replacements` counter of
`applyLoop`. -/
def keysWithReplacement : List (String × String) → List Char → Nat
  | [], _ => 0
  | e :: es, t =>
    let r := applyEntry t e
    (if 0 < r.2 then 1 else 0) + keysWithReplacement es r.1

/-- First-match association-list lookup: the value a Python dict (with
unique keys, insertion-ordered) associates to `k`, or `none` when
`k not in` the dict. -/
def lookup : List (String × String) → String → Option String
  | [], _ => none
  | e :: rest, k => if e.1 = k then some e.2 else lookup rest k

/-- Does a template key still need translation?  Mirrors the skip
condition of `update_translation_json` (`cursor_translator.py` lines
261-267): a key is skipped — i.e. does not need translation — exactly
when it is present in the existing store with a non-empty value. -/
def needsTr (existing : List (String × String)) (k : String) : Bool :=
  match lookup existing k with
  | some v => v = ""
  | none => true

/-- The translation phase of `update_translation_json`
(`cursor_translator.py` lines 257-276): every template key needing
translation gets the translator's output for that key, other entries
are left as they are.  The source collects the needed keys in template
order, batch-translates them and writes the results back by position;
with the per-string translator `tr` (the fallback variant translates
each string independently and preserves length and order) this is the
same as the element-wise update below. -/
def fillTemplate (existing : List (String × String)) (tr : String → String)
    (template : List (String × String)) : List (String × String) :=
  template.map fun e => (e.1, if needsTr existing e.1 then tr e.1 else e.2)

/-- The manual-edit phase of `update_translation_json`
(`cursor_translator.py` lines 278-281): `for key, value in
existing_translations.items(): if key in template and value:
template[key] = value` — every template entry whose key has a
non-empty value in the existing store takes that existing value. -/
def overwriteExisting (existing : List (String × String))
    (template : List (String × String)) : List (String × String) :=
  template.map fun e =>
    (e.1, match lookup existing e.1 with
          | some v => if v = "" then e.2 else v
          | none => e.2)

/-- `DeepLTranslator.update_translation_json` (`cursor_translator.py`
lines 228-289), as a function of the loaded existing store, the loaded
template and the per-string translator: translate the template keys
that are absent from the existing store or pending there, then restore
every non-empty existing value, and the result (dumped to the output
file in this order) is the merged store. -/
def updateTranslationJson (existing template : List (String × String))
    (tr : String → String) : List (String × String) :=
  overwriteExisting existing (fillTemplate existing tr template)

/-- Step 5.1 of `extract_strings.main` (`extract_strings.py` lines
333-339): append, in extraction order, every freshly extracted string
that is not yet a key of the existing store, with an empty pending
value. -/
def addNewStrings (existing : List (String × String)) (uiStrings : List String) :
    List (String × String) :=
  uiStrings.foldl
    (fun acc s => if (acc.map Prod.fst).contains s then acc else acc ++ [(s, "")])
    existing

/-- Steps 5.1-5.2 of `extract_strings.main` (`extract_strings.py`
lines 333-349): add the newly extracted strings as pending keys, then
delete every key that is no longer extracted and whose value is still
empty (`key not in ui_strings and existing_translations[key] == ""`). -/
def mergeExtracted (existing : List (String × String)) (uiStrings : List String) :
    List (String × String) :=
  (addNewStrings existing uiStrings).filter fun e =>
    uiStrings.contains e.1 || e.2 ≠ ""

/-- Lexicographic order on character sequences by code point, which
is how Python compares strings (`sorted` on `str`). -/
def lexLe : List Char → List Char → Bool
  | [], _ => true
  | _ :: _, [] => false
  | c :: cs, d :: ds =>
    if c.toNat < d.toNat then true
    else if d.toNat < c.toNat then false
    else lexLe cs ds

/-- Stable ascending insertion of a string into a sorted list,
modelling one step of Python `sorted(translations.keys())`. -/
def insertAsc (x : String) : List String → List String
  | [] => [x]
  | y :: ys => if lexLe y.data x.data then y :: insertAsc x ys else x :: y :: ys

/-- Python `sorted` on a list of strings: stable ascending
lexicographic sort by code points. -/
def sortAsc (l : List String) : List String :=
  l.foldr insertAsc []

/-- `save_translations` (`extract_strings.py` lines 265-276):
`{k: translations[k] for k in sorted(translations.keys())}`, the
key/value sequence dumped to the JSON file. -/
def saveTranslations (m : List (String × String)) : List (String × String) :=
  (sortAsc (m.map Prod.fst)).map fun k => (k, (lookup m k).getD "")

/-- ASCII lowercasing of one character.  `target_lang.lower()` in the
source is only applied to language codes such as `"KO"`, which are
ASCII. -/
def charLower (c : Char) : Char :=
  if 65 ≤ c.toNat && c.toNat ≤ 90 then Char.ofNat (c.toNat + 32) else c

/-- `s.lower()` for the ASCII strings it is applied to. -/
def lowerStr (s : String) : String :=
  ⟨s.data.map charLower⟩

/-- `DeepLTranslator.SAMPLE_TRANSLATIONS['ko']`
(`cursor_translator.py` lines 16-40). -/
def SAMPLE_KO : List (String × String) :=
  [("Open File", "파일 열기"), ("Save", "저장"),
   ("Save As...", "다른 이름으로 저장..."), ("Close", "닫기"),
   ("Close All", "모두 닫기"), ("Preferences", "환경설정"),
   ("Settings", "설정"), ("Cut", "잘라내기"), ("Copy", "복사"),
   ("Paste", "붙여넣기"), ("Find", "찾기"), ("Replace", "바꾸기"),
   ("Go to Line", "줄 이동"), ("Toggle Comment", "주석 전환"),
   ("Indent", "들여쓰기"), ("Outdent", "내어쓰기"),
   ("Format Document", "문서 포맷팅"), ("Toggle Terminal", "터미널 전환"),
   ("Zoom In", "확대"), ("Zoom Out", "축소"), ("Full Screen", "전체 화면"),
   ("Split Editor", "편집기 분할"), ("Toggle Sidebar", "사이드바 전환")]

/-- `DeepLTranslator.SAMPLE_TRANSLATIONS['ja']`
(`cursor_translator.py` lines 42-66). -/
def SAMPLE_JA : List (String × String) :=
  [("Open File", "ファイルを開く"), ("Save", "保存"),
   ("Save As...", "名前を付けて保存..."), ("Close", "閉じる"),
   ("Close All", "すべて閉じる"), ("Preferences", "環境設定"),
   ("Settings", "設定"), ("Cut", "切り取り"), ("Copy", "コピー"),
   ("Paste", "貼り付け"), ("Find", "検索"), ("Replace", "置換"),
   ("Go to Line", "行へ移動"), ("Toggle Comment", "コメントの切り替え"),
   ("Indent", "インデント"), ("Outdent", "アウトデント"),
   ("Format Document", "ドキュメントのフォーマット"),
   ("Toggle Terminal", "ターミナルの切り替え"), ("Zoom In", "拡大"),
   ("Zoom Out", "縮小"), ("Full Screen", "全画面表示"),
   ("Split Editor", "エディタの分割"), ("Toggle Sidebar", "サイドバーの切り替え")]

/-- `DeepLTranslator.SAMPLE_TRANSLATIONS['zh']`
(`cursor_translator.py` lines 68-92). -/
def SAMPLE_ZH : List (String × String) :=
  [("Open File", "打开文件"), ("Save", "保存"), ("Save As...", "另存为..."),
   ("Close", "关闭"), ("Close All", "全部关闭"), ("Preferences", "首选项"),
   ("Settings", "设置"), ("Cut", "剪切"), ("Copy", "复制"),
   ("Paste", "粘贴"), ("Find", "查找"), ("Replace", "替换"),
   ("Go to Line", "转到行"), ("Toggle Comment", "切换注释"),
   ("Indent", "缩进"), ("Outdent", "减少缩进"),
   ("Format Document", "格式化文档"), ("Toggle Terminal", "切换终端"),
   ("Zoom In", "放大"), ("Zoom Out", "缩小"), ("Full Screen", "全屏"),
   ("Split Editor", "拆分编辑器"), ("Toggle Sidebar", "切换侧边栏")]

/-- One lookup into `SAMPLE_TRANSLATIONS[lang_code]` as done in the
fallback branch of `batch_translate` (`cursor_translator.py` lines
174-179): `some` when `lang_code in SAMPLE_TRANSLATIONS and text in
SAMPLE_TRANSLATIONS[lang_code]`. -/
def sampleTranslation (langCode text : String) : Option String :=
  if langCode = "ko" then lookup SAMPLE_KO text
  else if langCode = "ja" then lookup SAMPLE_JA text
  else if langCode = "zh" then lookup SAMPLE_ZH text
  else none

/-- `DeepLTranslator.batch_translate` (`cursor_translator.py` lines
157-199).  The external DeepL endpoint is modelled by `api`: `some ts`
is a successful response whose `"translations"` field lists the texts
`ts`; `none` covers both a raised request exception and a response
without a `"translations"` field (the source returns the input `texts`
unchanged in both cases).  The second component of the result records
whether a network request was issued.  An empty batch returns before
any other logic; without an API key or with an invalid one, the
per-string fallback dictionary is used and no request is made. -/
def batch_translate (apiKey : Option String) (hasValidKey : Bool)
    (api : List String → Option (List String))
    (texts : List String) (targetLang : String) : List String × Bool :=
  if texts.isEmpty then ([], false)
  else if apiKey.isNone || !hasValidKey then
    (texts.map (fun t => (sampleTranslation (lowerStr targetLang) t).getD t), false)
  else
    match api texts with
    | some ts => (ts, true)
    | none => (texts, true)

/-- Python whitespace stripping, `s.strip()` (both ends). -/
def stripChars (s : List Char) : List Char :=
  ((s.dropWhile Char.isWhitespace).reverse.dropWhile Char.isWhitespace).reverse

/-- A regex core `c` anchored with `$`, as Python applies it: `$`
matches at the end of the string or just before a single trailing
newline. -/
def dollarMatch (core : List Char → Bool) (s : List Char) : Bool :=
  core s || (s.getLast? == some newline && core s.dropLast)

/-- ASCII alphanumeric, the character class `[a-zA-Z0-9]`. -/
def isAsciiAlnum (c : Char) : Bool :=
  c.isAlpha || c.isDigit

/-- `re.match(r'^[0-9]+$', s)` (`cursor_extractor.py` line 88). -/
def matchesPureNumeric (s : List Char) : Bool :=
  dollarMatch (fun t => !t.isEmpty && t.all Char.isDigit) s

/-- `re.match(r'^[a-zA-Z0-9]{1,3}$', s)` (`cursor_extractor.py` line
89). -/
def matchesShortAlnum (s : List Char) : Bool :=
  dollarMatch (fun t => 1 ≤ t.length && t.length ≤ 3 && t.all isAsciiAlnum) s

/-- `re.match(r'^https?://', s)` or `re.match(r'^www\.', s)`
(`cursor_extractor.py` lines 90-91): the two URL shapes are prefix
matches, no `$` anchor. -/
def matchesUrl (s : List Char) : Bool :=
  ("http://").data.isPrefixOf s || ("https://").data.isPrefixOf s
    || ("www.").data.isPrefixOf s

/-- Character class `[a-zA-Z0-9._%+-]` of the email local part. -/
def isEmailLocalChar (c : Char) : Bool :=
  isAsciiAlnum c || c == Char.ofNat 46 || c == Char.ofNat 95
    || c == Char.ofNat 37 || c == Char.ofNat 43 || c == Char.ofNat 45

/-- Character class `[a-zA-Z0-9.-]` of the email domain part. -/
def isEmailDomainChar (c : Char) : Bool :=
  isAsciiAlnum c || c == Char.ofNat 46 || c == Char.ofNat 45

/-- The part after `@` of the email regex,
`[a-zA-Z0-9.-]+\.[a-zA-Z]{2,}` run to the end of the text: some dot
splits it into a non-empty domain-class run and a final run of at
least two letters. -/
def emailDomainOk (t : List Char) : Bool :=
  (List.range t.length).any fun j =>
    decide (0 < j) && (t.get? j == some (Char.ofNat 46))
      && (t.take j).all isEmailDomainChar
      && decide (2 ≤ t.length - (j + 1)) && (t.drop (j + 1)).all Char.isAlpha

/-- `re.match(r'^[a-zA-Z0-9._%+-]+@[a-zA-Z0-9.-]+\.[a-zA-Z]{2,}$', s)`
(`cursor_extractor.py` line 92): some `@` splits the text into a
non-empty local-class run and a matching domain part. -/
def matchesEmail (s : List Char) : Bool :=
  dollarMatch
    (fun t =>
      (List.range t.length).any fun i =>
        decide (0 < i) && (t.get? i == some (Char.ofNat 64))
          && (t.take i).all isEmailLocalChar && emailDomainOk (t.drop (i + 1)))
    s

/-- The bare-path character class of `cursor_extractor.py` line 93:
ASCII alphanumerics, underscore, hyphen, forward slash and
backslash. -/
def isPathChar (c : Char) : Bool :=
  isAsciiAlnum c || c == Char.ofNat 95 || c == Char.ofNat 45
    || c == Char.ofNat 47 || c == Char.ofNat 92

/-- The bare path/identifier exclusion pattern of
`cursor_extractor.py` line 93: a full-string match of one or more
path-class characters, `$`-anchored. -/
def matchesBarePath (s : List Char) : Bool :=
  dollarMatch (fun t => !t.isEmpty && t.all isPathChar) s

/-- The acceptance test of `CursorExtractor._filter_strings`
(`cursor_extractor.py` lines 80-111): the string survives the chain of
`continue` guards — it is not lone punctuation (after stripping), its
length is within the 2..500 bounds, and it matches none of the
exclusion patterns. -/
def keepString (s : String) : Bool :=
  !(stripChars s.data == [Char.ofNat 44] || stripChars s.data == [Char.ofNat 46]
      || stripChars s.data == [Char.ofNat 58] || stripChars s.data == [Char.ofNat 59])
  && !(decide (s.length < 2) || decide (s.length > 500))
  && !(matchesPureNumeric s.data || matchesShortAlnum s.data || matchesUrl s.data
      || matchesEmail s.data || matchesBarePath s.data)

/-- `CursorExtractor._filter_strings` over a pool of extracted
candidate strings (the source pools regex matches into a set; the
filtering decision for each string is `keepString`). -/
def filterStrings (l : List String) : List String :=
  l.filter keepString

/-- `re.search(r'^[\w\.\-]+$', s)` in `extract_ui_strings`
(`extract_strings.py` line 243).  With both anchors and no MULTILINE
flag, `re.search` behaves like `re.match` here.  `\w` is modelled as
ASCII word characters; the modelling difference (Python `\w` also
covers non-ASCII letters) cannot turn a non-matching string containing
`:` or `/` into a matching one. -/
def matchesWordToken (s : List Char) : Bool :=
  dollarMatch
    (fun t => !t.isEmpty
      && t.all fun c => isAsciiAlnum c || c == Char.ofNat 95
        || c == Char.ofNat 46 || c == Char.ofNat 45)
    s

/-- `re.search(r'^\d+$', s)` in `extract_ui_strings`
(`extract_strings.py` line 243). -/
def matchesDigitsOnly (s : List Char) : Bool :=
  dollarMatch (fun t => !t.isEmpty && t.all Char.isDigit) s

/-- The inline acceptance test of `extract_ui_strings`
(`extract_strings.py` lines 239-244): keep a regex match when it
contains an ASCII letter, is longer than 3 characters, and matches
neither the bare word/dot/hyphen token shape nor the pure-digits
shape. -/
def uiKeep (s : String) : Bool :=
  s.data.any Char.isAlpha && decide (3 < s.length)
    && !matchesWordToken s.data && !matchesDigitsOnly s.data

/-- `extract_ui_strings` over a pool of regex-matched candidate
strings: the retained candidates.  (The structural regexes that
produce the pool from the bundle text are abstracted as the input
list; e.g. the bundle run `title:"https://example.com"` contributes
the candidate `https://example.com`.) -/
def uiFilter (l : List String) : List String :=
  l.filter uiKeep

end CursorTranslator

namespace CursorTranslator

example : replaceAll ("ab").data ("X").data ("zabzab").data = ("zXzX").data := by decide

example :
    updateTranslationJson [("a", "X"), ("b", "")] [("a", ""), ("b", ""), ("c", "")]
      (fun s => s ++ s)
      = [("a", "X"), ("b", "bb"), ("c", "cc")] := by decide

example : mergeExtracted [("old", "kept"), ("gone", "")] ["new"]
    = [("old", "kept"), ("new", "")] := by decide

example : saveTranslations [("b", "2"), ("a", "1")] = [("a", "1"), ("b", "2")] := by
  decide

example :
    batch_translate none false (fun _ => none) ["Save", "Hello"] "KO"
      = (["저장", "Hello"], false) := by decide

example : matchesEmail ("ab@cd.org").data = true := by decide

example : matchesEmail ("ab@cd.o").data = false := by decide

example : keepString "Open the file" = true := by decide

example : keepString "a/b/c" = false := by decide

example : keepString "ab1" = false := by decide

example : uiKeep "https://example.com" = true := by decide

/-- Descending key length, the order in which `apply_translations`
processes store entries. -/
def keyLenGe (a b : String × String) : Prop :=
  b.1.length ≤ a.1.length

theorem replaceAllAux_no_occ (p r : List Char) :
    ∀ (fuel : Nat) (t : List Char), occursIn p t = false →
      replaceAllAux p r fuel t = t := by
  intro fuel
  induction fuel with
  | zero => intro t _; rfl
  | succ n ih =>
    intro t h
    cases t with
    | nil => rfl
    | cons c rest =>
      simp only [occursIn, Bool.or_eq_false_iff] at h
      simp [replaceAllAux, h.1, ih rest h.2]

theorem replaceAll_no_occ (p r t : List Char) (h : occursIn p t = false) :
    replaceAll p r t = t :=
  replaceAllAux_no_occ p r t.length t h

theorem applyPattern_no_occ (p r : List Char) (acc : List Char × Nat)
    (h : occursIn p acc.1 = false) : applyPattern p r acc = acc := by
  simp [applyPattern, replaceAll_no_occ p r acc.1 h]

theorem applyPattern_snd_ge (p r : List Char) (acc : List Char × Nat) :
    acc.2 ≤ (applyPattern p r acc).2 := by
  simp only [applyPattern]
  split <;> omega

theorem applyPattern_snd_le (p r : List Char) (acc : List Char × Nat) :
    (applyPattern p r acc).2 ≤ acc.2 + 1 := by
  simp only [applyPattern]
  split <;> omega

theorem applyPattern_fst_of_snd_eq (p r : List Char) (acc : List Char × Nat)
    (h : (applyPattern p r acc).2 = acc.2) : (applyPattern p r acc).1 = acc.1 := by
  simp only [applyPattern] at h ⊢
  split at h
  · assumption
  · omega

theorem applyEntry_no_occ (t : List Char) (e : String × String)
    (h : e.2 ≠ "" → 3 ≤ e.1.length →
      occursIn (dquote :: e.1.data ++ [dquote]) t = false ∧
      occursIn (squote :: e.1.data ++ [squote]) t = false) :
    applyEntry t e = (t, 0) := by
  by_cases hv : e.2 = ""
  · simp [applyEntry, hv]
  by_cases hl : e.1.length < 3
  · simp [applyEntry, hv, hl]
  have hocc := h hv (Nat.le_of_not_lt hl)
  rw [applyEntry, if_neg hv, if_neg hl,
    applyPattern_no_occ _ _ (t, 0) hocc.1, applyPattern_no_occ _ _ (t, 0) hocc.2]

theorem applyEntry_snd_le_two (t : List Char) (e : String × String) :
    (applyEntry t e).2 ≤ 2 := by
  rw [applyEntry]
  split
  · exact Nat.zero_le 2
  split
  · exact Nat.zero_le 2
  have h1 := applyPattern_snd_le
    (dquote :: e.1.data ++ [dquote])
    (if e.1.data.contains squote then squote :: e.2.data ++ [squote]
     else dquote :: e.2.data ++ [dquote]) (t, 0)
  have h2 := applyPattern_snd_le (squote :: e.1.data ++ [squote])
    (squote :: e.2.data ++ [squote])
    (applyPattern (dquote :: e.1.data ++ [dquote])
      (if e.1.data.contains squote then squote :: e.2.data ++ [squote]
       else dquote :: e.2.data ++ [dquote]) (t, 0))
  simp only at h1
  omega

theorem applyEntry_fst_of_snd_zero (t : List Char) (e : String × String)
    (h : (applyEntry t e).2 = 0) : (applyEntry t e).1 = t := by
  rw [applyEntry] at h ⊢
  split
  · rfl
  split
  · rfl
  rename_i hv hl
  rw [if_neg hv, if_neg hl] at h
  set a1 := applyPattern (dquote :: e.1.data ++ [dquote])
    (if e.1.data.contains squote then squote :: e.2.data ++ [squote]
     else dquote :: e.2.data ++ [dquote]) (t, 0) with ha1
  have hge1 : (0 : Nat) ≤ a1.2 := Nat.zero_le _
  have hge2 := applyPattern_snd_ge (squote :: e.1.data ++ [squote])
    (squote :: e.2.data ++ [squote]) a1
  have ha1z : a1.2 = 0 := by omega
  have hfst2 := applyPattern_fst_of_snd_eq (squote :: e.1.data ++ [squote])
    (squote :: e.2.data ++ [squote]) a1 (by omega)
  have hfst1 : a1.1 = t := by
    have := applyPattern_fst_of_snd_eq (dquote :: e.1.data ++ [dquote])
      (if e.1.data.contains squote then squote :: e.2.data ++ [squote]
       else dquote :: e.2.data ++ [dquote]) (t, 0) (by rw [← ha1] at *; omega)
    rw [← ha1] at this
    exact this
  rw [hfst2, hfst1]

theorem applyLoop_no_occ (es : List (String × String)) (t : List Char)
    (h : ∀ e ∈ es, e.2 ≠ "" → 3 ≤ e.1.length →
      occursIn (dquote :: e.1.data ++ [dquote]) t = false ∧
      occursIn (squote :: e.1.data ++ [squote]) t = false) :
    applyLoop es t = (t, 0) := by
  induction es with
  | nil => rfl
  | cons e es ih =>
    have he : applyEntry t e = (t, 0) :=
      applyEntry_no_occ t e (h e (List.mem_cons_self e es))
    have hrest : applyLoop es t = (t, 0) :=
      ih fun x hx => h x (List.mem_cons_of_mem e hx)
    simp [applyLoop, he, hrest]

theorem applyLoop_fst_of_snd_zero (es : List (String × String)) :
    ∀ t : List Char, (applyLoop es t).2 = 0 → (applyLoop es t).1 = t := by
  induction es with
  | nil => intro t _; rfl
  | cons e es ih =>
    intro t h
    simp only [applyLoop] at h ⊢
    have hd : (applyEntry t e).2 = 0 := by omega
    have hr : (applyLoop es (applyEntry t e).1).2 = 0 := by omega
    rw [ih (applyEntry t e).1 hr, applyEntry_fst_of_snd_zero t e hd]

theorem applyLoop_count_bounds (es : List (String × String)) :
    ∀ t : List Char,
      keysWithReplacement es t ≤ (applyLoop es t).2 ∧
      (applyLoop es t).2 ≤ 2 * keysWithReplacement es t := by
  induction es with
  | nil => intro t; simp [applyLoop, keysWithReplacement]
  | cons e es ih =>
    intro t
    have hb := applyEntry_snd_le_two t e
    have hih := ih (applyEntry t e).1
    simp only [applyLoop, keysWithReplacement]
    split <;> omega

theorem mem_insertByLen {y x : String × String} :
    ∀ {l : List (String × String)}, y ∈ insertByLen x l ↔ y = x ∨ y ∈ l := by
  intro l
  induction l with
  | nil => simp [insertByLen]
  | cons z zs ih =>
    simp only [insertByLen]
    split
    · simp only [List.mem_cons, ih]
      tauto
    · simp only [List.mem_cons]

theorem pairwise_insertByLen {x : String × String} :
    ∀ {l : List (String × String)}, List.Pairwise keyLenGe l →
      List.Pairwise keyLenGe (insertByLen x l) := by
  intro l
  induction l with
  | nil => intro _; simp [insertByLen, List.pairwise_cons]
  | cons z zs ih =>
    intro h
    rw [List.pairwise_cons] at h
    simp only [insertByLen]
    split
    · rename_i hlt
      rw [List.pairwise_cons]
      refine ⟨fun y hy => ?_, ih h.2⟩
      rcases mem_insertByLen.mp hy with hy | hy
      · subst hy
        exact Nat.le_of_lt hlt
      · exact h.1 y hy
    · rename_i hnlt
      rw [List.pairwise_cons]
      refine ⟨fun y hy => ?_, by rw [List.pairwise_cons]; exact h⟩
      rcases List.mem_cons.mp hy with hy | hy
      · subst hy
        exact Nat.le_of_not_lt hnlt
      · exact Nat.le_trans (h.1 y hy) (Nat.le_of_not_lt hnlt)

theorem sortDesc_pairwise (l : List (String × String)) :
    List.Pairwise keyLenGe (sortDesc l) := by
  induction l with
  | nil => simp [sortDesc]
  | cons e es ih => exact pairwise_insertByLen ih

theorem mem_sortDesc {y : String × String} :
    ∀ {l : List (String × String)}, y ∈ sortDesc l ↔ y ∈ l := by
  intro l
  induction l with
  | nil => simp [sortDesc]
  | cons e es ih =>
    show y ∈ insertByLen e (sortDesc es) ↔ _
    rw [mem_insertByLen]
    simp [ih]

theorem lookup_mapValues (f : String → String → String)
    (l : List (String × String)) (k : String) :
    lookup (l.map fun e => (e.1, f e.1 e.2)) k = (lookup l k).map (f k) := by
  induction l with
  | nil => rfl
  | cons e es ih =>
    simp only [List.map_cons, lookup]
    split
    · rename_i h
      subst h
      rfl
    · exact ih

theorem lookup_append_left (l l2 : List (String × String)) (k v : String)
    (h : lookup l k = some v) : lookup (l ++ l2) k = some v := by
  induction l with
  | nil => exact absurd h (by simp [lookup])
  | cons e es ih =>
    simp only [lookup, List.cons_append] at h ⊢
    split at h
    · rename_i he
      rw [if_pos he]
      exact h
    · rename_i he
      rw [if_neg he]
      exact ih h

theorem addNewStrings_lookup (ui : List String) :
    ∀ (acc : List (String × String)) (k v : String), lookup acc k = some v →
      lookup (addNewStrings acc ui) k = some v := by
  induction ui with
  | nil => intro acc k v h; exact h
  | cons s ss ih =>
    intro acc k v h
    show lookup
      (addNewStrings (if (acc.map Prod.fst).contains s then acc else acc ++ [(s, "")]) ss)
      k = some v
    apply ih
    split
    · exact h
    · exact lookup_append_left acc [(s, "")] k v h

theorem lookup_filter (p : String × String → Bool) :
    ∀ (l : List (String × String)) (k v : String), lookup l k = some v →
      p (k, v) = true → lookup (l.filter p) k = some v := by
  intro l
  induction l with
  | nil => intro k v h _; exact absurd h (by simp [lookup])
  | cons e es ih =>
    intro k v h hp
    simp only [lookup] at h
    by_cases he : e.1 = k
    · rw [if_pos he] at h
      have : (k, v) = e := by
        cases e
        simp_all
      rw [← this]
      simp [List.filter_cons, hp, lookup]
    · rw [if_neg he] at h
      simp only [List.filter_cons]
      split
      · simp only [lookup, if_neg he]
        exact ih k v h hp
      · exact ih k v h hp

theorem mem_addNewStrings (ui : List String) :
    ∀ (acc : List (String × String)) (e : String × String),
      e ∈ addNewStrings acc ui → e ∈ acc ∨ e.1 ∈ ui := by
  induction ui with
  | nil => intro acc e h; exact Or.inl h
  | cons s ss ih =>
    intro acc e h
    have h' : e ∈ (if (acc.map Prod.fst).contains s then acc else acc ++ [(s, "")])
        ∨ e.1 ∈ ss := ih _ e h
    rcases h' with h' | h'
    · split at h'
      · exact Or.inl h'
      · rcases List.mem_append.mp h' with h' | h'
        · exact Or.inl h'
        · right
          simp only [List.mem_singleton] at h'
          subst h'
          exact List.mem_cons_self s ss
    · exact Or.inr (List.mem_cons_of_mem s h')

theorem lookup_eq_of_mem_nodup :
    ∀ (l : List (String × String)), (l.map Prod.fst).Nodup →
      ∀ e ∈ l, lookup l e.1 = some e.2 := by
  intro l
  induction l with
  | nil => intro _ e he; exact absurd he (List.not_mem_nil e)
  | cons f fs ih =>
    intro hnd e he
    simp only [List.map_cons, List.nodup_cons] at hnd
    rcases List.mem_cons.mp he with he | he
    · subst he
      simp [lookup]
    · have hne : f.1 ≠ e.1 := by
        intro hc
        exact hnd.1 (hc ▸ List.mem_map_of_mem Prod.fst he)
      simp only [lookup, if_neg hne]
      exact ih hnd.2 e he

theorem lookup_none (l : List (String × String)) (k : String)
    (h : ∀ e ∈ l, e.1 ≠ k) : lookup l k = none := by
  induction l with
  | nil => rfl
  | cons e es ih =>
    simp only [lookup, if_neg (h e (List.mem_cons_self e es))]
    exact ih fun x hx => h x (List.mem_cons_of_mem e hx)

theorem lexLe_nil (a : List Char) : lexLe [] a = true := by
  cases a <;> rfl

theorem lexLe_cons_iff (c d : Char) (cs ds : List Char) :
    lexLe (c :: cs) (d :: ds) = true ↔
      c.toNat < d.toNat ∨ (c.toNat = d.toNat ∧ lexLe cs ds = true) := by
  simp only [lexLe]
  split
  · rename_i h
    simp [h]
  · split
    · rename_i h1 h2
      simp
      omega
    · rename_i h1 h2
      have : c.toNat = d.toNat := by omega
      simp [this]

theorem lexLe_total : ∀ a b : List Char, lexLe a b = true ∨ lexLe b a = true := by
  intro a
  induction a with
  | nil => intro b; exact Or.inl (lexLe_nil b)
  | cons c cs ih =>
    intro b
    cases b with
    | nil => exact Or.inr (lexLe_nil (c :: cs))
    | cons d ds =>
      rcases Nat.lt_trichotomy c.toNat d.toNat with h | h | h
      · exact Or.inl ((lexLe_cons_iff c d cs ds).mpr (Or.inl h))
      · rcases ih ds with h2 | h2
        · exact Or.inl ((lexLe_cons_iff c d cs ds).mpr (Or.inr ⟨h, h2⟩))
        · exact Or.inr ((lexLe_cons_iff d c ds cs).mpr (Or.inr ⟨h.symm, h2⟩))
      · exact Or.inr ((lexLe_cons_iff d c ds cs).mpr (Or.inl h))

theorem lexLe_trans : ∀ a b c : List Char,
    lexLe a b = true → lexLe b c = true → lexLe a c = true := by
  intro a
  induction a with
  | nil => intro b c _ _; exact lexLe_nil c
  | cons x xs ih =>
    intro b c hab hbc
    cases b with
    | nil => exact absurd hab (by simp [lexLe])
    | cons y ys =>
      cases c with
      | nil => exact absurd hbc (by simp [lexLe])
      | cons z zs =>
        rcases (lexLe_cons_iff x y xs ys).mp hab with h1 | h1 <;>
          rcases (lexLe_cons_iff y z ys zs).mp hbc with h2 | h2
        · exact (lexLe_cons_iff x z xs zs).mpr (Or.inl (Nat.lt_trans h1 h2))
        · exact (lexLe_cons_iff x z xs zs).mpr (Or.inl (h2.1 ▸ h1))
        · exact (lexLe_cons_iff x z xs zs).mpr (Or.inl (h1.1 ▸ h2))
        · exact (lexLe_cons_iff x z xs zs).mpr
            (Or.inr ⟨h1.1.trans h2.1, ih ys zs h1.2 h2.2⟩)

/-- Ascending code-point order on strings, Python's `<=` on `str`. -/
def strLe (a b : String) : Prop :=
  lexLe a.data b.data = true

theorem mem_insertAsc {y x : String} :
    ∀ {l : List String}, y ∈ insertAsc x l ↔ y = x ∨ y ∈ l := by
  intro l
  induction l with
  | nil => simp [insertAsc]
  | cons z zs ih =>
    simp only [insertAsc]
    split
    · simp only [List.mem_cons, ih]
      tauto
    · simp only [List.mem_cons]

theorem pairwise_insertAsc {x : String} :
    ∀ {l : List String}, List.Pairwise strLe l →
      List.Pairwise strLe (insertAsc x l) := by
  intro l
  induction l with
  | nil => intro _; simp [insertAsc, List.pairwise_cons]
  | cons z zs ih =>
    intro h
    rw [List.pairwise_cons] at h
    simp only [insertAsc]
    split
    · rename_i hle
      rw [List.pairwise_cons]
      refine ⟨fun y hy => ?_, ih h.2⟩
      rcases mem_insertAsc.mp hy with hy | hy
      · subst hy
        exact hle
      · exact h.1 y hy
    · rename_i hnle
      have hxz : strLe x z := by
        rcases lexLe_total x.data z.data with h2 | h2
        · exact h2
        · exact absurd h2 hnle
      rw [List.pairwise_cons]
      refine ⟨fun y hy => ?_, by rw [List.pairwise_cons]; exact h⟩
      rcases List.mem_cons.mp hy with hy | hy
      · subst hy
        exact hxz
      · exact lexLe_trans _ _ _ hxz (h.1 y hy)

theorem sortAsc_pairwise (l : List String) : List.Pairwise strLe (sortAsc l) := by
  induction l with
  | nil => simp [sortAsc]
  | cons e es ih => exact pairwise_insertAsc ih

theorem prefix_append_last (q : Char) :
    ∀ s l : List Char, q ∉ s → q ∉ l →
      (s ++ [q]).isPrefixOf (l ++ [q]) = true → s = l := by
  intro s
  induction s with
  | nil =>
    intro l _ hql h
    cases l with
    | nil => rfl
    | cons x l' =>
      have hx : q = x := by
        simpa [List.isPrefixOf] using h
      exact absurd (hx ▸ List.mem_cons_self x l') hql
  | cons a s' ih =>
    intro l hqs hql h
    cases l with
    | nil =>
      exfalso
      cases s' with
      | nil => simp [List.isPrefixOf] at h
      | cons c s'' => simp [List.isPrefixOf] at h
    | cons b l' =>
      simp only [List.cons_append, List.isPrefixOf, Bool.and_eq_true, beq_iff_eq] at h
      have hs' : q ∉ s' := fun hc => hqs (List.mem_cons_of_mem a hc)
      have hl' : q ∉ l' := fun hc => hql (List.mem_cons_of_mem b hc)
      rw [h.1, ih l' hs' hl' h.2]

theorem occursIn_quoted_tail (q : Char) (s : List Char) :
    ∀ l : List Char, q ∉ l → occursIn (q :: s ++ [q]) (l ++ [q]) = false := by
  intro l
  induction l with
  | nil =>
    intro _
    show (((q :: s ++ [q]).isPrefixOf [q]) || occursIn (q :: s ++ [q]) []) = false
    have h1 : (q :: s ++ [q]).isPrefixOf [q] = false := by
      cases s with
      | nil => simp [List.isPrefixOf]
      | cons c s' => simp [List.isPrefixOf]
    have h2 : occursIn (q :: s ++ [q]) [] = false := by
      simp [occursIn]
    rw [h1, h2]
    rfl
  | cons x l' ih =>
    intro hql
    show (((q :: s ++ [q]).isPrefixOf (x :: (l' ++ [q])))
      || occursIn (q :: s ++ [q]) (l' ++ [q])) = false
    have hqx : (q == x) = false := by
      have : q ≠ x := fun hc => hql (hc ▸ List.mem_cons_self x l')
      simpa using this
    have h1 : (q :: s ++ [q]).isPrefixOf (x :: (l' ++ [q])) = false := by
      simp [List.isPrefixOf, hqx]
    rw [h1, ih (fun hc => hql (List.mem_cons_of_mem x hc))]
    rfl

/-- For quote-free keys, the quoted literal of one key never occurs
inside the quoted literal of a different key (in particular a shorter
key never matches inside a longer key's literal): the only place the
quote character appears in the longer literal is at its two ends. -/
theorem quoted_key_not_inside_other (q : Char) (s l : List Char)
    (hqs : q ∉ s) (hql : q ∉ l) (hne : s ≠ l) :
    occursIn (q :: s ++ [q]) (q :: l ++ [q]) = false := by
  show (((q :: s ++ [q]).isPrefixOf (q :: (l ++ [q])))
    || occursIn (q :: s ++ [q]) (l ++ [q])) = false
  have h1 : (q :: s ++ [q]).isPrefixOf (q :: (l ++ [q])) = false := by
    cases hp : (s ++ [q]).isPrefixOf (l ++ [q]) with
    | false => simp [List.isPrefixOf, hp]
    | true => exact absurd (prefix_append_last q s l hqs hql hp) hne
  rw [h1, occursIn_quoted_tail q s l hql]
  rfl

theorem lookup_fillTemplate (existing : List (String × String)) (tr : String → String)
    (l : List (String × String)) (k : String) :
    lookup (fillTemplate existing tr l) k
      = (lookup l k).map fun w => if needsTr existing k then tr k else w :=
  lookup_mapValues (fun a w => if needsTr existing a then tr a else w) l k

theorem lookup_overwriteExisting (existing l : List (String × String)) (k : String) :
    lookup (overwriteExisting existing l) k
      = (lookup l k).map fun w =>
          match lookup existing k with
          | some v => if v = "" then w else v
          | none => w :=
  lookup_mapValues
    (fun a w =>
      match lookup existing a with
      | some v => if v = "" then w else v
      | none => w) l k

theorem updateTranslationJson_keys (existing template : List (String × String))
    (tr : String → String) :
    (updateTranslationJson existing template tr).map Prod.fst
      = template.map Prod.fst := by
  simp [updateTranslationJson, overwriteExisting, fillTemplate, List.map_map]

example :
    applyTranslations [("abc", "xyz")] (dquote :: ("abc").data ++ [dquote])
      = (dquote :: ("xyz").data ++ [dquote], 1) := by decide

end CursorTranslator

namespace CursorTranslator

/-- **C1 counterexample.**  Substitution is not idempotent for every
store and text: with the store `{"abcd": "X", "abc": 'z"abcd"z'}` and
the bundle text `"abc"`, the first pass rewrites the text to
`"z"abcd"z"`, inside which the quoted literal of the key `"abcd"`
now occurs, so a second pass performs a further replacement. -/
theorem apply_translations_not_idempotent :
    (applyTranslations [("abcd", "X"), ("abc", "z\"abcd\"z")]
        ((applyTranslations [("abcd", "X"), ("abc", "z\"abcd\"z")]
          (("\"abc\"").data)).1)).1
      ≠ (applyTranslations [("abcd", "X"), ("abc", "z\"abcd\"z")]
          (("\"abc\"").data)).1 := by
  decide

/-- **C1** (amended).  Substitution is idempotent once the translated
text no longer matches original keys: if no store key with a non-empty
translation and length at least 3 occurs quoted (in either convention)
in the once-rewritten text, then applying the substitution a second
time with the same store leaves the rewritten text unchanged. -/
theorem apply_translations_idempotent (ts : List (String × String)) (c : List Char)
    (h : ∀ e ∈ ts, e.2 ≠ "" → 3 ≤ e.1.length →
      occursIn (dquote :: e.1.data ++ [dquote]) (applyTranslations ts c).1 = false ∧
      occursIn (squote :: e.1.data ++ [squote]) (applyTranslations ts c).1 = false) :
    (applyTranslations ts ((applyTranslations ts c).1)).1
      = (applyTranslations ts c).1 := by
  have hz := applyLoop_no_occ (sortDesc ts) ((applyTranslations ts c).1)
    (fun e he => h e (mem_sortDesc.mp he))
  show (applyLoop (sortDesc ts) ((applyTranslations ts c).1)).1 = _
  rw [hz]

/-- Witness for `apply_translations_idempotent` at the store
`{"abc": "xyz"}` and the text `"abc"`: the rewritten text `"xyz"`
contains no quoted store key, so a second pass changes nothing. -/
theorem apply_translations_idempotent_witness :
    (applyTranslations [("abc", "xyz")]
        ((applyTranslations [("abc", "xyz")] (("\"abc\"").data)).1)).1
      = (applyTranslations [("abc", "xyz")] (("\"abc\"").data)).1 :=
  apply_translations_idempotent [("abc", "xyz")] (("\"abc\"").data) (by decide)

/-- **C2 counterexample.**  With a quote character inside a store key
the ordering does not protect the longer key's literal: in the store
`{'abc"de': "", "abc": "X"}` the longer key `abc"de` is itself a store
key, its quoted literal `"abc"de"` contains the quoted literal of the
shorter key `"abc"` (first conjunct), and because the longer key's
translation is empty it is skipped, so the shorter key is substituted
inside the longer key's literal, corrupting it to `"X"de"`. -/
theorem longest_key_first_counterexample :
    occursIn (dquote :: ("abc").data ++ [dquote])
        (dquote :: ("abc\"de").data ++ [dquote]) = true
    ∧ applyTranslations [("abc\"de", ""), ("abc", "X")]
          (dquote :: ("abc\"de").data ++ [dquote])
        = (("\"X\"de\"").data, 1) := by
  decide

/-- **C2** (amended).  The substitution processes store entries in
descending order of key length (first conjunct: the sorted entry list
is pairwise ordered by descending key length, for every store).  For
keys that do not contain the quote character — the only kind the
extractor's patterns produce — one key's quoted literal never occurs
inside a different key's quoted literal at all (second conjunct), so a
shorter key is never substituted inside a longer store key's literal;
a key containing a quote character escapes this protection when the
longer key is skipped.  On the spec's scenario store
`{"Save": "Save X", "Save As...": "Save As... Y"}` applied to a text
with the quoted literals `"Save"` and `"Save As..."`, each literal is
rewritten with its own translation — `"Save X"` is never substituted
inside `"Save As..."` — with both keys counted (third conjunct). -/
theorem substitution_longest_key_first :
    (∀ ts : List (String × String), List.Pairwise keyLenGe (sortDesc ts))
    ∧ (∀ (q : Char) (s l : List Char), q ∉ s → q ∉ l → s ≠ l →
        occursIn (q :: s ++ [q]) (q :: l ++ [q]) = false)
    ∧ applyTranslations [("Save", "Save X"), ("Save As...", "Save As... Y")]
          (("\"Save\" \"Save As...\"").data)
        = (("\"Save X\" \"Save As... Y\"").data, 2) :=
  ⟨sortDesc_pairwise, quoted_key_not_inside_other, by decide⟩

/-- Witness for `substitution_longest_key_first`: the quoted literal
of the quote-free key `abc` does not occur inside the quoted literal
of the quote-free key `abcdef`. -/
theorem substitution_longest_key_first_witness :
    occursIn (dquote :: ("abc").data ++ [dquote])
      (dquote :: ("abcdef").data ++ [dquote]) = false :=
  substitution_longest_key_first.2.1 dquote ("abc").data ("abcdef").data
    (by decide) (by decide) (by decide)

/-- **C3.**  Merge preserves manual edits: whenever the existing store
maps `k` to a non-empty value `v` and the incoming template maps `k`
to the empty (pending) value, the merged store produced by
`update_translation_json` still maps `k` to `v`. -/
theorem merge_preserves_manual_edits (existing template : List (String × String))
    (tr : String → String) (k v : String) (hv : v ≠ "")
    (hS : lookup existing k = some v) (hB : lookup template k = some "") :
    lookup (updateTranslationJson existing template tr) k = some v := by
  rw [updateTranslationJson, lookup_overwriteExisting, lookup_fillTemplate, hB, hS]
  simp [hv]

/-- Witness for `merge_preserves_manual_edits`: the manually edited
translation of `"Save"` survives a merge with a template that lists
`"Save"` as pending. -/
theorem merge_preserves_manual_edits_witness :
    lookup (updateTranslationJson [("Save", "저장")] [("Save", "")] (fun s => s))
      "Save" = some "저장" :=
  merge_preserves_manual_edits [("Save", "저장")] [("Save", "")] (fun s => s)
    "Save" "저장" (by decide) (by decide) (by decide)

/-- **C4 counterexample.**  `update_translation_json` does not retain
keys absent from the current template: the existing store maps
`"old key"` to the non-empty value `"manual translation"`, the key is
absent from the template, and the merged store does not contain it at
all. -/
theorem merge_retains_counterexample :
    lookup (updateTranslationJson [("old key", "manual translation")]
      [("new key", "")] (fun s => s)) "old key" = none := by
  decide

/-- **C4** (amended).  The merged store of `update_translation_json`
has exactly the template's keys, in template order — keys present only
in the existing store are dropped, whatever their value.  The
`extract_strings` merge flow, by contrast, retains every existing key
with a non-empty value (whether or not it is still extracted), and
prunes a no-longer-extracted key exactly when its value is still
empty. -/
theorem merge_retention_characterization :
    (∀ (existing template : List (String × String)) (tr : String → String),
      (updateTranslationJson existing template tr).map Prod.fst
        = template.map Prod.fst)
    ∧ (∀ (existing : List (String × String)) (ui : List String) (k v : String),
        lookup existing k = some v → v ≠ "" →
        lookup (mergeExtracted existing ui) k = some v)
    ∧ (∀ (existing : List (String × String)) (ui : List String) (k : String),
        (existing.map Prod.fst).Nodup → lookup existing k = some "" →
        ui.contains k = false →
        lookup (mergeExtracted existing ui) k = none) := by
  refine ⟨updateTranslationJson_keys, fun existing ui k v hl hv => ?_, ?_⟩
  · exact lookup_filter _ (addNewStrings existing ui) k v
      (addNewStrings_lookup ui existing k v hl) (by simp [hv])
  · intro existing ui k hnd hl hk
    apply lookup_none
    intro e he hek
    rw [mergeExtracted, List.mem_filter] at he
    rcases mem_addNewStrings ui existing e he.1 with hmem | hmem
    · have hv : e.2 = "" := by
        have := lookup_eq_of_mem_nodup existing hnd e hmem
        rw [hek, hl] at this
        exact (Option.some.injEq _ _ ▸ this).symm
      have : (ui.contains e.1 || decide (e.2 ≠ "")) = false := by
        rw [hek, hk, hv]
        simp
      rw [this] at he
      exact Bool.false_ne_true he.2
    · rw [hek] at hmem
      have hk2 : k ∉ ui := by simpa using hk
      exact hk2 hmem

/-- Witness for the retention part of
`merge_retention_characterization`: a manually translated key that is
no longer extracted survives the `extract_strings` merge. -/
theorem merge_retention_characterization_witness :
    lookup (mergeExtracted [("old key", "manual")] ["new key"]) "old key"
      = some "manual" :=
  merge_retention_characterization.2.1 [("old key", "manual")] ["new key"]
    "old key" "manual" (by decide) (by decide)

/-- **C5 counterexample.**  The reported count is not the number of
distinct keys that caused a replacement: with the store
`{"abc": "x"}` and a text containing the literal both as `"abc"` and
as single-quoted `abc`, one distinct key causes replacements but the
reported count is 2 (one per quoting convention). -/
theorem replacement_count_counterexample :
    (applyTranslations [("abc", "x")]
        (dquote :: ("abc").data ++ [dquote, Char.ofNat 32]
          ++ (squote :: ("abc").data ++ [squote]))).2 = 2
    ∧ keysWithReplacement (sortDesc [("abc", "x")])
        (dquote :: ("abc").data ++ [dquote, Char.ofNat 32]
          ++ (squote :: ("abc").data ++ [squote])) = 1 := by
  decide

/-- **C5** (amended).  The reported count adds 1 per (key, quoting
convention) pass that changed the text, so a key whose literal occurs
under both conventions is counted twice, not once; consequently the
count always lies between the number of distinct keys that caused at
least one replacement and twice that number. -/
theorem replacement_count_bounds (ts : List (String × String)) (c : List Char) :
    keysWithReplacement (sortDesc ts) c ≤ (applyTranslations ts c).2
    ∧ (applyTranslations ts c).2 ≤ 2 * keysWithReplacement (sortDesc ts) c :=
  applyLoop_count_bounds (sortDesc ts) c

/-- **C6.**  The code does not abort when the backup fails: with
backups enabled and the backup copy failing (`create_backup` returns
`None`, which the caller never inspects), a run over the bundle text
`"abc"` with store `{"abc": "xyz"}` still rewrites and writes the
bundle, returning `True` — the claimed abort-before-destructive-write
does not happen. -/
theorem backup_failure_still_writes :
    apply_translations_run true false [("abc", "xyz")]
        (dquote :: ("abc").data ++ [dquote])
      = RunOutcome.written (dquote :: ("xyz").data ++ [dquote]) := by
  decide

/-- **C7.**  Translator shape preservation for
`DeepLTranslator.batch_translate`: assuming the provider answers a
successful request with one translation per input (DeepL's documented
response shape), every batch yields a result of exactly the input
length; the empty batch yields the empty list with no network
request; and on the fallback path (no API key or an invalid one) the
output is the index-wise image of the input under the sample
dictionary, entries without a sample translation passing through
unchanged. -/
theorem batch_translate_shape (apiKey : Option String) (hasValidKey : Bool)
    (api : List String → Option (List String)) (texts : List String)
    (targetLang : String)
    (hapi : ∀ l r, api l = some r → r.length = l.length) :
    (batch_translate apiKey hasValidKey api texts targetLang).1.length = texts.length
    ∧ batch_translate apiKey hasValidKey api [] targetLang = ([], false)
    ∧ ((apiKey.isNone || !hasValidKey) = true →
        batch_translate apiKey hasValidKey api texts targetLang
          = (texts.map fun t => (sampleTranslation (lowerStr targetLang) t).getD t,
             false)) := by
  refine ⟨?_, rfl, ?_⟩
  · by_cases hemp : texts.isEmpty
    · rw [List.isEmpty_iff.mp hemp]
      rfl
    · by_cases hcond : (apiKey.isNone || !hasValidKey) = true
      · simp [batch_translate, hemp, hcond]
      · cases hres : api texts with
        | some ts =>
          simp [batch_translate, hemp, hcond, hres, hapi texts ts hres]
        | none => simp [batch_translate, hemp, hcond, hres]
  · intro hcond
    by_cases hemp : texts.isEmpty
    · rw [List.isEmpty_iff.mp hemp]
      rfl
    · simp [batch_translate, hemp, hcond]

/-- Witness for `batch_translate_shape`: without an API key, the batch
`["Save", "Hello"]` for language `"KO"` maps index-wise to
`["저장", "Hello"]` (the second entry has no sample translation and
passes through unchanged), with no network request. -/
theorem batch_translate_shape_witness :
    (batch_translate none false (fun _ => none) ["Save", "Hello"] "KO").1.length = 2
    ∧ batch_translate none false (fun _ => none) ["Save", "Hello"] "KO"
        = (["저장", "Hello"], false) := by
  have h := batch_translate_shape none false (fun _ => none) ["Save", "Hello"] "KO"
    (fun l r hr => by cases hr)
  refine ⟨h.1, ?_⟩
  rw [h.2.2 rfl]
  decide

/-- **C8 counterexample.**  Not every save path persists the store
sorted by key: `update_translation_json` dumps the merged template in
template key order, so with the template `{"b": ..., "a": ...}` the
written key sequence is `["b", "a"]`, which is not ascending. -/
theorem save_sorted_counterexample :
    ((updateTranslationJson [] [("b", "x"), ("a", "y")] (fun s => s)).map Prod.fst
      = ["b", "a"])
    ∧ ¬ strLe "b" "a" := by
  constructor
  · decide
  · intro h
    rw [strLe] at h
    exact absurd h (by decide)

/-- **C8** (amended).  `save_translations` always persists the store
in ascending key order, for every in-memory insertion order;
`update_translation_json`, by contrast, writes the merged pairs in the
template's key order (hence sorted only when the template already
is). -/
theorem save_translations_sorted :
    (∀ m : List (String × String),
      List.Pairwise (fun a b : String × String => strLe a.1 b.1)
        (saveTranslations m))
    ∧ (∀ (existing template : List (String × String)) (tr : String → String),
        (updateTranslationJson existing template tr).map Prod.fst
          = template.map Prod.fst) := by
  refine ⟨fun m => ?_, updateTranslationJson_keys⟩
  rw [saveTranslations, List.pairwise_map]
  exact sortAsc_pairwise (m.map Prod.fst)

/-- **C9 counterexample.**  The `extract_ui_strings` variant of the
extractor does not enforce the URL exclusion: the candidate
`https://example.com` (produced e.g. by the bundle run
`title:"https://example.com"`) passes its inline filter and is kept in
the output although it matches the URL shape. -/
theorem extractor_url_counterexample :
    "https://example.com" ∈ uiFilter ["https://example.com"]
    ∧ matchesUrl ("https://example.com").data = true := by
  decide

/-- **C9** (amended).  The filter invariants hold for
`CursorExtractor._filter_strings`: every retained string has length
between 2 and 500 and matches none of the pure-numeric,
short-alphanumeric-token, URL, email, or bare-path shapes.  The
`extract_ui_strings` variant guarantees only its inline checks —
length above 3, at least one ASCII letter, not a bare
word/dot/hyphen token, not purely numeric — and can retain URL- or
email-shaped or over-long strings. -/
theorem extractor_filter_invariants :
    (∀ (l : List String) (s : String), s ∈ filterStrings l →
      2 ≤ s.length ∧ s.length ≤ 500
        ∧ matchesPureNumeric s.data = false ∧ matchesShortAlnum s.data = false
        ∧ matchesUrl s.data = false ∧ matchesEmail s.data = false
        ∧ matchesBarePath s.data = false)
    ∧ (∀ (l : List String) (s : String), s ∈ uiFilter l →
        3 < s.length ∧ s.data.any Char.isAlpha = true
          ∧ matchesWordToken s.data = false ∧ matchesDigitsOnly s.data = false) := by
  constructor
  · intro l s hs
    rw [filterStrings, List.mem_filter] at hs
    have hk := hs.2
    rw [keepString] at hk
    simp only [Bool.and_eq_true, Bool.not_eq_true', Bool.or_eq_false_iff,
      decide_eq_false_iff_not, Nat.not_lt, Nat.not_gt_eq] at hk
    exact ⟨hk.1.2.1, hk.1.2.2, hk.2.1.1.1.1, hk.2.1.1.1.2, hk.2.1.1.2,
      hk.2.1.2, hk.2.2⟩
  · intro l s hs
    rw [uiFilter, List.mem_filter] at hs
    have hk := hs.2
    rw [uiKeep] at hk
    simp only [Bool.and_eq_true, Bool.not_eq_true', decide_eq_true_eq] at hk
    exact ⟨hk.1.1.2, hk.1.1.1, hk.1.2, hk.2⟩

/-- Witness for `extractor_filter_invariants` at the candidate
`"Open the file"`, which both filters retain. -/
theorem extractor_filter_invariants_witness :
    (2 ≤ ("Open the file" : String).length
      ∧ ("Open the file" : String).length ≤ 500
      ∧ matchesPureNumeric ("Open the file").data = false
      ∧ matchesShortAlnum ("Open the file").data = false
      ∧ matchesUrl ("Open the file").data = false
      ∧ matchesEmail ("Open the file").data = false
      ∧ matchesBarePath ("Open the file").data = false)
    ∧ (3 < ("Open the file" : String).length
      ∧ ("Open the file").data.any Char.isAlpha = true
      ∧ matchesWordToken ("Open the file").data = false
      ∧ matchesDigitsOnly ("Open the file").data = false) :=
  ⟨extractor_filter_invariants.1 ["Open the file"] "Open the file" (by decide),
   extractor_filter_invariants.2 ["Open the file"] "Open the file" (by decide)⟩

/-- **C10.**  If the substitution pass finds zero replacements,
`apply_translations` takes the `replacements > 0 == False` branch: it
performs no write (the run outcome is `noChange`, returning `False`)
and the rewritten text it computed equals the original bundle text
byte for byte. -/
theorem zero_replacements_no_write (backup backupOk : Bool)
    (ts : List (String × String)) (c : List Char)
    (h : (applyTranslations ts c).2 = 0) :
    apply_translations_run backup backupOk ts c = RunOutcome.noChange
    ∧ (applyTranslations ts c).1 = c := by
  constructor
  · simp [apply_translations_run, h]
  · exact applyLoop_fst_of_snd_zero (sortDesc ts) c h

/-- Witness for `zero_replacements_no_write`: the store
`{"abc": "x"}` finds nothing to replace in the text `zzz`, so the run
writes nothing and the text is unchanged. -/
theorem zero_replacements_no_write_witness :
    apply_translations_run true true [("abc", "x")] (("zzz").data)
        = RunOutcome.noChange
    ∧ (applyTranslations [("abc", "x")] (("zzz").data)).1 = ("zzz").data :=
  zero_replacements_no_write true true [("abc", "x")] (("zzz").data) (by decide)

end CursorTranslator
